import Mathlib

set_option maxRecDepth 4000

/-!
# Verification of the VM lifecycle manager and terminal session multiplexer

Shallow embedding of the core of the `aiclubbackend` repository:

* `src/services/docker.service.ts` — port allocation (`getNextAvailablePort`,
  `freePort`), VM lifecycle (`provisionVM`, `startVM`, `stopVM`, `terminateVM`,
  `getVMStatus`), admin operations (`forceStopContainer`,
  `forceRemoveContainer`) and the credit-metering arithmetic inside `stopVM`;
* `src/websocket/terminal.ts` — the terminal session map, the per-connection
  message handler, the close handler and `closeVMConnections`;
* `src/config/index.ts` — the `vm` and `credits` configuration constants;
* the Mongoose `VM` and `User` documents, modelled as plain records.

Mongo documents are modelled as lists of records; the module-level
`usedPorts : Set<number>` is a list of naturals with set semantics; Docker
containers are modelled as `(containerId, running)` pairs; the wall clock
(`Date.now()`, milliseconds) is a field of the system state.  Docker calls
that the source explicitly tolerates failing (the `try { inspect/stop/remove }`
block of `terminateVM`) take an explicit success flag; Docker calls whose
failure the source propagates are modelled by `Except`.
-/

namespace AiClub

/-- Decidable equality for `Except`, so concrete runs of the embedded
operations can be checked by `decide`. -/
instance {ε α : Type} [DecidableEq ε] [DecidableEq α] :
    DecidableEq (Except ε α) := fun a b =>
  match a, b with
  | .ok x, .ok y =>
    if h : x = y then .isTrue (by rw [h]) else .isFalse (by simp [h])
  | .error e, .error f =>
    if h : e = f then .isTrue (by rw [h]) else .isFalse (by simp [h])
  | .ok _, .error _ => .isFalse (by simp)
  | .error _, .ok _ => .isFalse (by simp)

/-- The `status` enum of the Mongoose `VM` schema. -/
inductive VMStatus
  | creating
  | running
  | stopped
  | terminated
  | error
  deriving DecidableEq, Repr

/-- A `VM` document.  `vmId` stands for the Mongo `_id`, `containerId` for the
Docker container id; timestamps are epoch milliseconds.  Fields no claim
touches (`image`, `memoryLimit`, `cpuShares`, `ipAddress`) are omitted. -/
structure VMRec where
  vmId : Nat
  ownerId : Nat
  containerId : Nat
  name : String
  status : VMStatus
  sshPort : Nat
  totalRuntime : Nat
  creditsConsumed : Nat
  lastStartedAt : Option Nat
  lastStoppedAt : Option Nat
  deriving DecidableEq, Repr

/-- A `User` document, reduced to the fields the VM core reads and writes.
`credits` is an `Int` because the `$inc` update in `stopVM` bypasses the
schema's `min: 0` validator and can drive the stored value negative. -/
structure UserRec where
  userId : Nat
  credits : Int
  deriving DecidableEq, Repr

/-- A Docker container as the lifecycle manager observes it. -/
structure Container where
  containerId : Nat
  running : Bool
  deriving DecidableEq, Repr

/-- One entry of the terminal module's `connections` map.  `hasStream` is
whether `connection.stream`/`connection.resize` were populated by a successful
attach; `wsOpen` is whether the underlying WebSocket is still open. -/
structure TermConn where
  connId : Nat
  userId : Nat
  vmId : Nat
  hasStream : Bool
  wsOpen : Bool
  deriving DecidableEq, Repr

/-- The shared mutable state of the core: the `VM` and `User` collections, the
Docker daemon's containers, the module-level `usedPorts` set, the terminal
`connections` map, and the wall clock in milliseconds. -/
structure SysState where
  vms : List VMRec
  users : List UserRec
  containers : List Container
  usedPorts : List Nat
  connections : List TermConn
  now : Nat
  deriving DecidableEq, Repr

/-! ## Configuration (`src/config/index.ts`) -/

/-- `config.vm.baseSSHPort`. -/
def baseSSHPort : Nat := 30000

/-- `config.vm.maxVMsPerUser`. -/
def maxVMsPerUser : Nat := 3

/-- `config.credits.vmCostPerHour`. -/
def vmCostPerHour : Nat := 10

/-! ## Errors thrown by the service -/

/-- The `Error`s thrown by `docker.service.ts`, plus `dockerError` for a
Docker-daemon failure the function does not catch (propagated to the caller). -/
inductive VMError
  | vmNotFound
  | userNotFound
  | maxVMLimit
  | insufficientCredits
  | alreadyRunning
  | cannotStartTerminated
  | notRunning
  | dockerError
  deriving DecidableEq, Repr

/-! ## Store lookups and updates -/

/-- `VM.findOne({ _id: vmId, ownerId: userId })`. -/
def findVM (s : SysState) (vmId userId : Nat) : Option VMRec :=
  s.vms.find? (fun r => r.vmId == vmId && r.ownerId == userId)

/-- `User.findById(userId)`. -/
def findUser (s : SysState) (userId : Nat) : Option UserRec :=
  s.users.find? (fun u => u.userId == userId)

/-- `docker.getContainer(id)` followed by an `inspect` that succeeds only when
the container exists. -/
def findContainer (s : SysState) (containerId : Nat) : Option Container :=
  s.containers.find? (fun c => c.containerId == containerId)

/-- Persisting a modified document: `vm.save()` rewrites the record with the
matching `_id`. -/
def updateVM (vms : List VMRec) (vmId : Nat) (f : VMRec → VMRec) : List VMRec :=
  vms.map (fun r => if r.vmId == vmId then f r else r)

/-- `User.findByIdAndUpdate(userId, ...)`. -/
def updateUser (users : List UserRec) (userId : Nat) (f : UserRec → UserRec) :
    List UserRec :=
  users.map (fun u => if u.userId == userId then f u else u)

/-- Effect of `container.start()` / `container.stop()` on the daemon state. -/
def setContainerRunning (cs : List Container) (containerId : Nat) (b : Bool) :
    List Container :=
  cs.map (fun c => if c.containerId == containerId then { c with running := b } else c)

/-- Effect of `container.remove({ force: true })` on the daemon state. -/
def removeContainer (cs : List Container) (containerId : Nat) : List Container :=
  cs.filter (fun c => !(c.containerId == containerId))

/-- The `status` of the record with the given `_id`, if any. -/
def statusOf (s : SysState) (vmId : Nat) : Option VMStatus :=
  (s.vms.find? (fun r => r.vmId == vmId)).map (fun r => r.status)

/-! ## Port allocator (`getNextAvailablePort` / `freePort`) -/

/-- The `VM.find({ status: { $ne: 'terminated' } })` reconciliation query. -/
def nonTermRecs (s : SysState) : List VMRec :=
  s.vms.filter (fun r => !(r.status == VMStatus.terminated))

/-- Ports held by non-terminated records. -/
def nonTermPorts (s : SysState) : List Nat :=
  (nonTermRecs s).map (fun r => r.sshPort)

/-- The loop `while (usedPorts.has(port)) { port++; }`, with explicit fuel;
`getNextAvailablePort` supplies fuel exceeding the size of the set, which the
pigeonhole lemma below shows is always enough. -/
def scanFrom (used : List Nat) : Nat → Nat → Nat
  | port, 0 => port
  | port, fuel + 1 => if port ∈ used then scanFrom used (port + 1) fuel else port

/-- `getNextAvailablePort`: reseed `usedPorts` from every non-terminated
record, scan upward from `config.vm.baseSSHPort`, mark the first free port used
and return it.  The source has no upper bound on the scan and no failure path:
the function totals. -/
def getNextAvailablePort (s : SysState) : Nat × SysState :=
  let used := s.usedPorts ++ nonTermPorts s
  let port := scanFrom used baseSSHPort (used.length + 1)
  (port, { s with usedPorts := port :: used })

/-- `freePort`: `usedPorts.delete(port)`. -/
def freePort (s : SysState) (port : Nat) : SysState :=
  { s with usedPorts := s.usedPorts.filter (fun q => !(q == port)) }

/-! ## Fresh identifiers

Mongo `_id`s and Docker container ids are globally unique; freshness is
modelled as one more than the largest id ever recorded. -/

def freshVmId (s : SysState) : Nat :=
  (s.vms.map (fun r => r.vmId)).foldr max 0 + 1

def freshContainerId (s : SysState) : Nat :=
  (s.vms.map (fun r => r.containerId)).foldr max 0 + 1

/-! ## Credit metering (`stopVM` arithmetic)

`const hoursUsed = runtime / 3600;
 const creditsUsed = Math.ceil(hoursUsed * config.credits.vmCostPerHour);`
computed exactly: `⌈runtime * rate / 3600⌉` as natural ceiling division. -/

def ceilCredits (runtimeSec : Nat) : Nat :=
  (runtimeSec * vmCostPerHour + 3599) / 3600

/-! ## VM lifecycle operations -/

/-- Record updaters used by the saves below (`vm.status = ...; await vm.save()`
and the admin `findByIdAndUpdate` writes). -/

def markRunning (now : Nat) : VMRec → VMRec :=
  fun r => { r with status := VMStatus.running, lastStartedAt := some now }

def markStopped (now : Nat) : VMRec → VMRec :=
  fun r => { r with status := VMStatus.stopped, lastStoppedAt := some now }

def markTerminated : VMRec → VMRec :=
  fun r => { r with status := VMStatus.terminated }

def markStatus (st : VMStatus) : VMRec → VMRec :=
  fun r => { r with status := st }

/-- The quota query of `provisionVM`:
`VM.find({ ownerId, status: { $in: ['running', 'stopped', 'creating'] } })`.
Note that records in status `error` are not counted. -/
def quotaVMs (s : SysState) (userId : Nat) : List VMRec :=
  s.vms.filter (fun r => r.ownerId == userId &&
    (r.status == VMStatus.running || r.status == VMStatus.stopped ||
      r.status == VMStatus.creating))

/-- `provisionVM`: quota check, credit check, port reservation, container
creation and start, record persisted as `creating` then updated to `running`
with `lastStartedAt` stamped.  No credit is charged at provision time. -/
def provisionVM (s : SysState) (userId : Nat) (vmName : String) :
    Except VMError (SysState × VMRec) :=
  if maxVMsPerUser ≤ (quotaVMs s userId).length then .error .maxVMLimit
  else
    match findUser s userId with
    | none => .error .userNotFound
    | some user =>
      if user.credits < (vmCostPerHour : Int) then .error .insufficientCredits
      else
        let alloc := getNextAvailablePort s
        let s1 := alloc.2
        let cid := freshContainerId s1
        let newId := freshVmId s1
        let s2 := { s1 with containers :=
          s1.containers ++ [({ containerId := cid, running := false } : Container)] }
        let rec0 : VMRec :=
          { vmId := newId, ownerId := userId, containerId := cid, name := vmName,
            status := .creating, sshPort := alloc.1, totalRuntime := 0,
            creditsConsumed := 0, lastStartedAt := none, lastStoppedAt := none }
        let s3 := { s2 with vms := s2.vms ++ [rec0] }
        let s4 := { s3 with containers := setContainerRunning s3.containers cid true }
        let vmR := markRunning s.now rec0
        let s5 := { s4 with vms := (updateVM s4.vms newId (markRunning s.now)) }
        .ok (s5, vmR)

/-- `startVM`.  The status guard rejects only `running` and `terminated`; a
missing user or a balance below the hourly rate both raise the same
`Insufficient credits` error.  `container.start()` treats "already started"
(HTTP 304) as success but propagates any other daemon error, so a missing
container fails the call. -/
def startVM (s : SysState) (vmId userId : Nat) :
    Except VMError (SysState × VMRec) :=
  match findVM s vmId userId with
  | none => .error .vmNotFound
  | some vm =>
    if vm.status == VMStatus.running then .error .alreadyRunning
    else if vm.status == VMStatus.terminated then .error .cannotStartTerminated
    else
      match findUser s userId with
      | none => .error .insufficientCredits
      | some user =>
        if user.credits < (vmCostPerHour : Int) then .error .insufficientCredits
        else
          match findContainer s vm.containerId with
          | none => .error .dockerError
          | some _ =>
            let s1 := { s with containers :=
              setContainerRunning s.containers vm.containerId true }
            let vm' := markRunning s.now vm
            .ok ({ s1 with vms := (updateVM s1.vms vmId (markRunning s.now)) }, vm')

/-- `stopVM`.  Requires status `running`; stops the container (304 tolerated,
a missing container propagates); if `lastStartedAt` is set, accumulates
`totalRuntime`, accumulates `creditsConsumed` and applies
`$inc: { credits: -creditsUsed }` to the owner — with no floor at zero; then
stamps `stopped`/`lastStoppedAt`. -/
def stopVM (s : SysState) (vmId userId : Nat) :
    Except VMError (SysState × VMRec) :=
  match findVM s vmId userId with
  | none => .error .vmNotFound
  | some vm =>
    if !(vm.status == VMStatus.running) then .error .notRunning
    else
      match findContainer s vm.containerId with
      | none => .error .dockerError
      | some _ =>
        let s1 := { s with containers :=
          setContainerRunning s.containers vm.containerId false }
        let billed :=
          match vm.lastStartedAt with
          | some t0 =>
            let runtime := (s.now - t0) / 1000
            let creditsUsed := ceilCredits runtime
            let vm2 := { vm with
              totalRuntime := vm.totalRuntime + runtime,
              creditsConsumed := vm.creditsConsumed + creditsUsed }
            ({ s1 with users := (updateUser s1.users userId
              (fun u => { u with credits := u.credits - (creditsUsed : Int) })) }, vm2)
          | none => (s1, vm)
        let vm3 := markStopped s.now billed.2
        .ok ({ billed.1 with vms := updateVM billed.1.vms vmId (fun _ => vm3) }, vm3)

/-- `terminateVM`.  The whole `inspect` / conditional `stop` / `remove` block
is wrapped in a `try` whose `catch` only logs, so a missing container or a
failing stop never aborts termination.  `stopOk` is whether the
`container.stop()` call inside the block succeeds; when it throws, the
`remove` below it is skipped and the container survives.  The port is freed
and the record set `terminated` unconditionally. -/
def terminateVM (s : SysState) (vmId userId : Nat) (stopOk : Bool) :
    Except VMError SysState :=
  match findVM s vmId userId with
  | none => .error .vmNotFound
  | some vm =>
    let s1 :=
      match findContainer s vm.containerId with
      | none => s
      | some c =>
        if c.running then
          if stopOk then
            { s with containers := removeContainer s.containers vm.containerId }
          else s
        else
          { s with containers := removeContainer s.containers vm.containerId }
    let s2 := freePort s1 vm.sshPort
    .ok { s2 with vms := (updateVM s2.vms vmId markTerminated) }

/-- `getVMStatus`: reconciliation.  When the container inspects, a record that
is not `terminated` and disagrees with the observed running/stopped state is
rewritten; when inspection fails, a record that is not `terminated` is marked
`error`.  Note the reconciliation to `running` does not stamp
`lastStartedAt`. -/
def getVMStatus (s : SysState) (vmId userId : Nat) :
    Except VMError (SysState × VMRec) :=
  match findVM s vmId userId with
  | none => .error .vmNotFound
  | some vm =>
    match findContainer s vm.containerId with
    | some c =>
      let actual := if c.running then VMStatus.running else VMStatus.stopped
      if !(vm.status == VMStatus.terminated) && !(vm.status == actual) then
        .ok ({ s with vms := (updateVM s.vms vmId (markStatus actual)) },
             markStatus actual vm)
      else .ok (s, vm)
    | none =>
      if !(vm.status == VMStatus.terminated) then
        .ok ({ s with vms := (updateVM s.vms vmId (markStatus VMStatus.error)) },
             markStatus VMStatus.error vm)
      else .ok (s, vm)

/-- `forceStopContainer` (admin): `container.stop({ t: 0 })` with no catch, so
a missing container or an already-stopped container (HTTP 304) propagates an
error; on success the record found by `containerId` — whatever its status —
is set to `stopped` with `lastStoppedAt` stamped. -/
def forceStopContainer (s : SysState) (containerId : Nat) :
    Except VMError SysState :=
  match findContainer s containerId with
  | none => .error .dockerError
  | some c =>
    if !c.running then .error .dockerError
    else
      let s1 := { s with containers := setContainerRunning s.containers containerId false }
      match s1.vms.find? (fun r => r.containerId == containerId) with
      | some vm =>
        .ok { s1 with vms := (updateVM s1.vms vm.vmId (markStopped s.now)) }
      | none => .ok s1

/-- `forceRemoveContainer` (admin): `container.remove({ force: true })` with no
catch; on success the record found by `containerId` has its port freed and is
set `terminated`. -/
def forceRemoveContainer (s : SysState) (containerId : Nat) :
    Except VMError SysState :=
  match findContainer s containerId with
  | none => .error .dockerError
  | some _ =>
    let s1 := { s with containers := removeContainer s.containers containerId }
    match s1.vms.find? (fun r => r.containerId == containerId) with
    | some vm =>
      let s2 := freePort s1 vm.sshPort
      .ok { s2 with vms := (updateVM s2.vms vm.vmId markTerminated) }
    | none => .ok s1

/-! ## Terminal session manager (`src/websocket/terminal.ts`) -/

/-- A parsed client frame, after `JSON.parse` succeeded.  `other` stands for
any `message.type` besides `input`, `resize` and `ping` (including a missing
type). -/
inductive ClientMsg
  | input (data : String)
  | resize (cols rows : Nat)
  | ping
  | other (msgType : String)
  deriving DecidableEq, Repr

/-- A raw inbound frame: either text that fails `JSON.parse`, or a parsed
message. -/
inductive InboundMsg
  | invalidJson
  | parsed (m : ClientMsg)
  deriving DecidableEq, Repr

/-- Externally visible effects of the terminal handlers. -/
inductive WsAction
  | streamWrite (data : String)
  | execResize (cols rows : Nat)
  | sendFrame (frameType : String)
  deriving DecidableEq, Repr

/-- The `ws.on('message')` handler.  A `JSON.parse` failure is caught and only
logged; `input` writes to the attached stream when one exists; `resize` is
forwarded when the resize capability exists and `cols`/`rows` are truthy
(`0` is falsy in JavaScript); `ping` answers with a `pong` frame; any other
type falls through the `switch`.  The handler never touches the `connections`
map, never closes the socket and never ends the stream. -/
def handleTerminalMessage (s : SysState) (conn : TermConn) (msg : InboundMsg) :
    SysState × List WsAction :=
  match msg with
  | .invalidJson => (s, [])
  | .parsed (.input d) =>
    (s, if conn.hasStream then [WsAction.streamWrite d] else [])
  | .parsed (.resize c r) =>
    (s, if conn.hasStream && !(c == 0) && !(r == 0)
        then [WsAction.execResize c r] else [])
  | .parsed .ping => (s, [WsAction.sendFrame "pong"])
  | .parsed (.other _) => (s, [])

/-- The `ws.on('close')` handler: end the stream, delete the map entry. -/
def handleTerminalClose (s : SysState) (connId : Nat) : SysState :=
  { s with connections := s.connections.filter (fun c => !(c.connId == connId)) }

/-- `closeVMConnections`: close and delete every session whose `vmId`
matches.  Exported by the terminal module; no other module invokes it. -/
def closeVMConnections (s : SysState) (vmId : Nat) : SysState :=
  { s with connections := s.connections.filter (fun c => !(c.vmId == vmId)) }

/-! ## Operation sequences

API requests against the lifecycle manager, as fired by the routes in
`vm.routes.ts` and the admin routes.  A request whose service call throws
leaves the persistent state as the service left it at the throw point; every
throw point in the embedded services precedes the first state mutation, so a
failing call is a no-op on the state. -/

inductive Op
  | provision (userId : Nat) (name : String)
  | start (vmId userId : Nat)
  | stop (vmId userId : Nat)
  | terminate (vmId userId : Nat) (stopOk : Bool)
  | statusQuery (vmId userId : Nat)
  | adminForceStop (containerId : Nat)
  | adminForceRemove (containerId : Nat)
  deriving DecidableEq, Repr

/-- Run one request; a thrown error leaves the state unchanged. -/
def applyOp (s : SysState) (op : Op) : SysState :=
  match op with
  | .provision u nm =>
    match provisionVM s u nm with | .ok p => p.1 | .error _ => s
  | .start v u =>
    match startVM s v u with | .ok p => p.1 | .error _ => s
  | .stop v u =>
    match stopVM s v u with | .ok p => p.1 | .error _ => s
  | .terminate v u ok2 =>
    match terminateVM s v u ok2 with | .ok s' => s' | .error _ => s
  | .statusQuery v u =>
    match getVMStatus s v u with | .ok p => p.1 | .error _ => s
  | .adminForceStop c =>
    match forceStopContainer s c with | .ok s' => s' | .error _ => s
  | .adminForceRemove c =>
    match forceRemoveContainer s c with | .ok s' => s' | .error _ => s

/-- Run a sequence of requests. -/
def applySeq (s : SysState) (ops : List Op) : SysState :=
  ops.foldl applyOp s

/-- Whether an operation is a provision or a terminate (the operation
language of the port-allocation claims). -/
def isPT : Op → Bool
  | .provision _ _ => true
  | .terminate _ _ _ => true
  | _ => false

/-! ## Predicates used by the port-allocation theorems -/

/-- A port is reserved when it is in the in-memory set or held by a
non-terminated record. -/
def reservedPorts (s : SysState) : List Nat :=
  s.usedPorts ++ nonTermPorts s

/-- A port nothing currently reserves. -/
def portIsFree (s : SysState) (p : Nat) : Prop :=
  p ∉ s.usedPorts ∧ ∀ r ∈ nonTermRecs s, r.sshPort ≠ p

/-- Boolean form of `portIsFree`, for counting. -/
def portFreeB (s : SysState) (p : Nat) : Bool :=
  decide (p ∉ s.usedPorts) && decide (p ∉ nonTermPorts s)

/-- How many ports below `p` (within the scanned band) are still free. -/
def freeCount (s : SysState) (p : Nat) : Nat :=
  ((Finset.Ico baseSSHPort p).filter (fun q => portFreeB s q = true)).card

/-- The port-allocation invariant: record ids are unique, no two
non-terminated records share a port, and every non-terminated record's port
is at or above the base of the scan. -/
def PortInv (s : SysState) : Prop :=
  (s.vms.map (fun r => r.vmId)).Nodup ∧
  (nonTermRecs s).Pairwise (fun a b => a.sshPort ≠ b.sshPort) ∧
  ∀ r ∈ nonTermRecs s, baseSSHPort ≤ r.sshPort

instance (s : SysState) : Decidable (PortInv s) := by
  unfold PortInv
  exact inferInstance

/-- An owner whose next `provisionVM` call passes the quota and credit
checks. -/
def eligibleOwner (s : SysState) (userId : Nat) : Prop :=
  (quotaVMs s userId).length < maxVMsPerUser ∧
    ∃ u, findUser s userId = some u ∧ ¬ u.credits < (vmCostPerHour : Int)

/-! ## Concrete scenario states

Small concrete states used to evaluate the embedded operations at specific
inputs: initial states for the billing scenarios, and states exhibiting the
record shapes the status-dependent claims quantify over. -/

/-- A fresh deployment with a single user holding the default 100 credits. -/
def meterInit : SysState :=
  { vms := [], users := [{ userId := 1, credits := 100 }], containers := [],
    usedPorts := [], connections := [], now := 0 }

/-- First metering leg: provision at `t = 0`, stop at `t = 1800 s`. -/
def meterLeg1 : Except VMError (SysState × VMRec) :=
  match provisionVM meterInit 1 "A" with
  | .error e => .error e
  | .ok p => stopVM { p.1 with now := 1800000 } p.2.vmId 1

/-- Second metering leg: start again at `t = 1800 s`, stop at `t = 1810 s`. -/
def meterLeg2 : Except VMError (SysState × VMRec) :=
  match meterLeg1 with
  | .error e => .error e
  | .ok q =>
    match startVM { q.1 with now := 1800000 } q.2.vmId 1 with
    | .error e => .error e
    | .ok r => stopVM { r.1 with now := 1810000 } r.2.vmId 1

/-- A fresh deployment whose single user holds exactly one hourly unit. -/
def lowCreditInit : SysState :=
  { vms := [], users := [{ userId := 1, credits := 10 }], containers := [],
    usedPorts := [], connections := [], now := 0 }

/-- Provision with balance 10, run for 7200 s, stop. -/
def lowCreditStop : Except VMError (SysState × VMRec) :=
  match provisionVM lowCreditInit 1 "a" with
  | .error e => .error e
  | .ok p => stopVM { p.1 with now := 7200000 } p.2.vmId 1

/-- Terminate the freshly provisioned VM while its `container.stop()` call
fails: the catch block swallows the error, the record still becomes
`terminated`, and the container survives, still running. -/
def torn : Except VMError SysState :=
  match provisionVM meterInit 1 "A" with
  | .error e => .error e
  | .ok p => terminateVM p.1 p.2.vmId 1 false

/-- Admin emergency stop of that surviving container. -/
def tornForceStop : Except VMError SysState :=
  match torn with
  | .error e => .error e
  | .ok s => forceStopContainer s 1

/-- An owned record persisted as `creating` (the shape left behind when
provisioning throws between `vm.save()` and `container.start()`), with an
existing stopped container and a fully funded owner. -/
def creatingState : SysState :=
  { vms := [{ vmId := 1, ownerId := 1, containerId := 1, name := "c",
              status := .creating, sshPort := 30000, totalRuntime := 0,
              creditsConsumed := 0, lastStartedAt := none, lastStoppedAt := none }],
    users := [{ userId := 1, credits := 100 }],
    containers := [{ containerId := 1, running := false }],
    usedPorts := [30000], connections := [], now := 5000 }

/-- A record in status `error` owned by user 1, indexed by `i`. -/
def errVM (i : Nat) : VMRec :=
  { vmId := i, ownerId := 1, containerId := i, name := "e", status := .error,
    sshPort := 30000 + (i - 1), totalRuntime := 0, creditsConsumed := 0,
    lastStartedAt := none, lastStoppedAt := none }

/-- An owner at three non-terminated records — all in status `error` (the
shape `getVMStatus` leaves when inspections fail) — with plenty of credit. -/
def threeErrorState : SysState :=
  { vms := [errVM 1, errVM 2, errVM 3],
    users := [{ userId := 1, credits := 100 }], containers := [],
    usedPorts := [30000, 30001, 30002], connections := [], now := 0 }

/-- An allocator state whose in-memory `usedPorts` holds a reservation no VM
record backs (the shape left when `provisionVM` throws after
`getNextAvailablePort` but before `vm.save()`). -/
def stalePortState : SysState :=
  { vms := [], users := [], containers := [], usedPorts := [30000],
    connections := [], now := 0 }

/-- An allocator state with the first twenty ports of the scan in use. -/
def manyPortsState : SysState :=
  { vms := [], users := [], containers := [],
    usedPorts := (List.range 20).map (fun i => 30000 + i),
    connections := [], now := 0 }

/-- A running record that `getVMStatus` reconciliation marked `running`
without stamping `lastStartedAt`. -/
def noStampVM : VMRec :=
  { vmId := 1, ownerId := 1, containerId := 1, name := "g", status := .running,
    sshPort := 30000, totalRuntime := 7, creditsConsumed := 3,
    lastStartedAt := none, lastStoppedAt := none }

/-- System state around `noStampVM`, with one open terminal session attached
to that VM. -/
def noStampState : SysState :=
  { vms := [noStampVM], users := [{ userId := 1, credits := 42 }],
    containers := [{ containerId := 1, running := true }],
    usedPorts := [30000],
    connections := [{ connId := 7, userId := 1, vmId := 1,
                      hasStream := true, wsOpen := true }],
    now := 99000 }

/-- A state holding one terminated record (port 30000 already released) and a
second user with no VMs and full credit, used to instantiate the
port-reuse theorem. -/
def reuseState : SysState :=
  { vms := [{ vmId := 1, ownerId := 1, containerId := 1, name := "A",
              status := .running, sshPort := 30000, totalRuntime := 0,
              creditsConsumed := 0, lastStartedAt := some 0, lastStoppedAt := none }],
    users := [{ userId := 1, credits := 100 }, { userId := 2, credits := 100 }],
    containers := [{ containerId := 1, running := true }],
    usedPorts := [30000], connections := [], now := 0 }

/-- A running record owned by user 1, indexed by `i`. -/
def runVM (i : Nat) : VMRec :=
  { vmId := i, ownerId := 1, containerId := i, name := "r", status := .running,
    sshPort := 30000 + (i - 1), totalRuntime := 0, creditsConsumed := 0,
    lastStartedAt := some 0, lastStoppedAt := none }

/-- An owner at the full quota of three counted (running) records. -/
def quotaFullState : SysState :=
  { vms := [runVM 1, runVM 2, runVM 3],
    users := [{ userId := 1, credits := 100 }],
    containers := [{ containerId := 1, running := true },
                   { containerId := 2, running := true },
                   { containerId := 3, running := true }],
    usedPorts := [30000, 30001, 30002], connections := [], now := 0 }

/-- A user below one hourly billing unit, with no VMs. -/
def poorState : SysState :=
  { vms := [], users := [{ userId := 1, credits := 5 }], containers := [],
    usedPorts := [], connections := [], now := 0 }

/-- A state holding one terminated record whose container is already gone. -/
def termRecState : SysState :=
  { vms := [{ vmId := 1, ownerId := 1, containerId := 1, name := "t",
              status := .terminated, sshPort := 30000, totalRuntime := 9,
              creditsConsumed := 4, lastStartedAt := none, lastStoppedAt := some 0 }],
    users := [{ userId := 1, credits := 100 }], containers := [],
    usedPorts := [], connections := [], now := 0 }

/-! ## Theorems -/

/-- Claim C1: the claim asserts the stop-billing path applies
`balance = max(0, balance − ceil(elapsed/3600 × rate))`, never leaving the
balance negative.  The code applies `$inc: { credits: -creditsUsed }` with no
floor: provisioning with balance 10 (one hourly unit, so the provision gate
passes) and stopping after 7200 s charges `ceil(2 × 10) = 20` and stores
−10, where the claim requires `max(0, 10 − 20) = 0`. -/
theorem C1_stop_billing_unclamped :
    lowCreditStop.map (fun q => q.1.users.map (fun u => u.credits)) =
      .ok [(-10 : Int)] ∧
    ceilCredits 7200 = 20 ∧
    ((-10 : Int) ≠ max 0 (10 - (20 : Int))) := by
  decide

/-- Claim C4: terminating a VM is claimed to forcibly close every terminal
session attached to it.  `terminateVM` never touches the session map (no code
path invokes the exported `closeVMConnections`): terminating the VM of
`noStampState` leaves its open session in place, exactly the session that
`closeVMConnections` would have removed. -/
theorem C4_terminate_leaves_sessions_open :
    (terminateVM noStampState 1 1 true).map (fun s => s.connections) =
      .ok [{ connId := 7, userId := 1, vmId := 1, hasStream := true, wsOpen := true }] ∧
    (terminateVM noStampState 1 1 true).map (fun s => statusOf s 1) =
      .ok (some .terminated) ∧
    (closeVMConnections noStampState 1).connections = [] := by
  decide

/-- Claim C2, counterexample: a terminated record is revived.  Provision a
VM; terminate it while its `container.stop()` call fails (the catch block
swallows the error, the record becomes `terminated`, the container survives
running); then the admin emergency stop finds the record by container id and
sets it `stopped` without checking for `terminated`. -/
theorem C2_counterexample_forceStop_revives_terminated :
    torn.map (fun s => statusOf s 1) = .ok (some .terminated) ∧
    tornForceStop.map (fun s => statusOf s 1) = .ok (some .stopped) := by
  decide

/-- Claim C6, counterexample: `startVM` checks only for `running` and
`terminated`; on an existing owned record in status `creating` it proceeds
and starts the VM instead of failing with an invalid-state error. -/
theorem C6_counterexample_start_on_creating_succeeds :
    statusOf creatingState 1 = some .creating ∧
    (startVM creatingState 1 1).map (fun p => p.2.status) = .ok .running := by
  decide

/-- Claim C7, counterexample: the quota query counts only
`running/stopped/creating`.  An owner holding `maxVMsPerUser` non-terminated
records that are all in status `error` provisions another VM successfully,
though the claim requires `QuotaExceeded` whenever the non-terminated count
has reached the quota. -/
theorem C7_counterexample_error_vms_not_counted :
    (nonTermRecs threeErrorState).length = maxVMsPerUser ∧
    (provisionVM threeErrorState 1 "x").map (fun p => p.2.status) =
      .ok .running := by
  decide

/-- Claim C8, counterexample: the allocator scans the in-memory `usedPorts`
set, not the records.  With a stale reservation for 30000 and no VM records
at all, `reserve()` returns 30001 even though 30000 is held by no
non-terminated record; and there is no exhaustion failure: with the first
twenty ports of the scan in use it simply returns the twenty-first — the
function's type has no error outcome. -/
theorem C8_counterexample_no_range_no_failure :
    nonTermPorts stalePortState = [] ∧
    (getNextAvailablePort stalePortState).1 = 30001 ∧
    (getNextAvailablePort manyPortsState).1 = 30020 := by
  decide

/-- Claim C9: an inbound terminal frame that is not valid JSON, or whose
parsed type is none of `input`/`resize`/`ping`, is ignored: the state — in
particular the session map, the socket and the attached stream — is
untouched and no action (reply frame, stream write or resize) is emitted. -/
theorem C9_unknown_frames_ignored (s : SysState) (conn : TermConn)
    (msg : InboundMsg)
    (h : msg = .invalidJson ∨ ∃ t, msg = .parsed (.other t)) :
    handleTerminalMessage s conn msg = (s, []) := by
  rcases h with h | ⟨t, h⟩ <;> subst h <;> rfl

/-- Witness for C9 at concrete inputs: malformed JSON and an unknown
`subscribe` type are both ignored on a live session. -/
theorem C9_unknown_frames_ignored_witness :
    handleTerminalMessage noStampState
        { connId := 7, userId := 1, vmId := 1, hasStream := true, wsOpen := true }
        .invalidJson = (noStampState, []) ∧
    handleTerminalMessage noStampState
        { connId := 7, userId := 1, vmId := 1, hasStream := true, wsOpen := true }
        (.parsed (.other "subscribe")) = (noStampState, []) :=
  ⟨C9_unknown_frames_ignored _ _ _ (Or.inl rfl),
   C9_unknown_frames_ignored _ _ _ (Or.inr ⟨"subscribe", rfl⟩)⟩

/-- Claim C10: stopping a `running` record that carries no `lastStartedAt`
stamp performs no billing: the runtime block is guarded by
`if (vm.lastStartedAt)`, so `totalRuntime`, `creditsConsumed` and every user
balance are unchanged, while the status still becomes `stopped` and
`lastStoppedAt` is stamped with the current time. -/
theorem C10_stop_unbilled_when_unstamped (s : SysState) (vmId userId : Nat)
    (r : VMRec) (c : Container)
    (hfind : findVM s vmId userId = some r) (hstat : r.status = .running)
    (hstamp : r.lastStartedAt = none)
    (hc : findContainer s r.containerId = some c) :
    ∃ s' r', stopVM s vmId userId = .ok (s', r') ∧
      s'.users = s.users ∧
      r'.totalRuntime = r.totalRuntime ∧
      r'.creditsConsumed = r.creditsConsumed ∧
      r'.status = .stopped ∧
      r'.lastStoppedAt = some s.now ∧
      s'.vms = updateVM s.vms vmId (fun _ => r') ∧
      s'.connections = s.connections := by
  simp only [stopVM, hfind, hstat, hstamp, hc, beq_self_eq_true, Bool.not_true,
    Bool.false_eq_true, if_false]
  exact ⟨_, _, rfl, rfl, rfl, rfl, rfl, rfl, rfl, rfl⟩

/-- Witness for C10: the reconciled-but-unstamped record of `noStampState`. -/
theorem C10_stop_unbilled_when_unstamped_witness :
    ∃ s' r', stopVM noStampState 1 1 = .ok (s', r') ∧
      s'.users = noStampState.users ∧
      r'.totalRuntime = noStampVM.totalRuntime ∧
      r'.creditsConsumed = noStampVM.creditsConsumed ∧
      r'.status = .stopped ∧
      r'.lastStoppedAt = some noStampState.now ∧
      s'.vms = updateVM noStampState.vms 1 (fun _ => r') ∧
      s'.connections = noStampState.connections :=
  C10_stop_unbilled_when_unstamped noStampState 1 1 noStampVM
    { containerId := 1, running := true } rfl rfl rfl rfl

/-- Claim C5: the credit-metering scenario.  Provision with balance 100 and
rate 10 charges nothing; stopping after 1800 s charges `ceil(0.5 × 10) = 5`
(balance 95, runtime 1800, consumed 5); restarting and stopping after 10 s
charges `ceil(10/3600 × 10) = 1` (balance 94, runtime 1810, consumed 6).
In general a stop of a stamped running record adds the whole elapsed seconds
to `totalRuntime` and `ceilCredits` of them to `creditsConsumed`, where
`ceilCredits n` is exactly `ceil(n × rate / 3600)`: the least `k` with
`n × rate ≤ 3600 × k`. -/
theorem C5_credit_metering (s : SysState) (vmId userId : Nat)
    (r : VMRec) (c : Container) (t0 : Nat)
    (hfind : findVM s vmId userId = some r) (hstat : r.status = .running)
    (hstamp : r.lastStartedAt = some t0)
    (hc : findContainer s r.containerId = some c) :
    (∃ s' r', stopVM s vmId userId = .ok (s', r') ∧
      r'.totalRuntime = r.totalRuntime + (s.now - t0) / 1000 ∧
      r'.creditsConsumed = r.creditsConsumed + ceilCredits ((s.now - t0) / 1000) ∧
      s'.users = updateUser s.users userId
        (fun u => { u with credits :=
          u.credits - (ceilCredits ((s.now - t0) / 1000) : Int) })) ∧
    (∀ n k, ceilCredits n ≤ k ↔ n * vmCostPerHour ≤ 3600 * k) ∧
    (provisionVM meterInit 1 "A").map (fun p => p.1.users.map (fun u => u.credits)) =
      .ok [(100 : Int)] ∧
    meterLeg1.map (fun q =>
        (q.1.users.map (fun u => u.credits), q.2.totalRuntime, q.2.creditsConsumed)) =
      .ok ([(95 : Int)], 1800, 5) ∧
    meterLeg2.map (fun q =>
        (q.1.users.map (fun u => u.credits), q.2.totalRuntime, q.2.creditsConsumed)) =
      .ok ([(94 : Int)], 1810, 6) := by
  refine ⟨?_, ?_, by decide, by decide, by decide⟩
  · simp only [stopVM, hfind, hstat, hstamp, hc, beq_self_eq_true, Bool.not_true,
      Bool.false_eq_true, if_false]
    exact ⟨_, _, rfl, rfl, rfl, rfl⟩
  · intro n k
    unfold ceilCredits vmCostPerHour
    rw [Nat.div_le_iff_le_mul_add_pred (by norm_num)]
    omega

/-- Witness for C5 at the running record of `noStampState` restamped with a
start time. -/
theorem C5_credit_metering_witness :
    (∃ s' r',
      stopVM { noStampState with
                 vms := [{ noStampVM with lastStartedAt := some 0 }] } 1 1 =
          .ok (s', r') ∧
      r'.totalRuntime = noStampVM.totalRuntime + (99000 - 0) / 1000 ∧
      r'.creditsConsumed = noStampVM.creditsConsumed + ceilCredits ((99000 - 0) / 1000) ∧
      s'.users = updateUser noStampState.users 1
        (fun u => { u with credits :=
          u.credits - (ceilCredits ((99000 - 0) / 1000) : Int) })) ∧
    (∀ n k, ceilCredits n ≤ k ↔ n * vmCostPerHour ≤ 3600 * k) ∧
    (provisionVM meterInit 1 "A").map (fun p => p.1.users.map (fun u => u.credits)) =
      .ok [(100 : Int)] ∧
    meterLeg1.map (fun q =>
        (q.1.users.map (fun u => u.credits), q.2.totalRuntime, q.2.creditsConsumed)) =
      .ok ([(95 : Int)], 1800, 5) ∧
    meterLeg2.map (fun q =>
        (q.1.users.map (fun u => u.credits), q.2.totalRuntime, q.2.creditsConsumed)) =
      .ok ([(94 : Int)], 1810, 6) :=
  C5_credit_metering _ 1 1 { noStampVM with lastStartedAt := some 0 }
    { containerId := 1, running := true } 0 rfl rfl rfl rfl

/-! ## Allocator lemmas: the scan returns the least unreserved port -/

/-- The scan never moves below its starting port. -/
theorem scanFrom_ge (used : List Nat) :
    ∀ fuel port, port ≤ scanFrom used port fuel := by
  intro fuel
  induction fuel with
  | zero => intro port; simp [scanFrom]
  | succ n ih =>
    intro port
    unfold scanFrom
    split
    · exact Nat.le_trans (Nat.le_succ port) (ih (port + 1))
    · exact Nat.le_refl port

/-- With a free slot within reach of the fuel, the scan lands on a port not
in the set. -/
theorem scanFrom_not_mem (used : List Nat) :
    ∀ fuel port, (∃ k, k ≤ fuel ∧ port + k ∉ used) →
      scanFrom used port fuel ∉ used := by
  intro fuel
  induction fuel with
  | zero =>
    intro port ⟨k, hk, hfree⟩
    have : k = 0 := Nat.le_zero.mp hk
    subst this
    simpa using hfree
  | succ n ih =>
    intro port ⟨k, hk, hfree⟩
    unfold scanFrom
    split
    · rename_i hmem
      apply ih (port + 1)
      match k, hk, hfree with
      | 0, _, hfree => exact absurd hmem (by simpa using hfree)
      | k + 1, hk, hfree =>
        exact ⟨k, Nat.lt_succ_iff.mp hk, by
          simpa [Nat.add_assoc, Nat.add_comm 1 k] using hfree⟩
    · assumption

/-- The scan never passes over a port outside the set. -/
theorem scanFrom_min (used : List Nat) :
    ∀ fuel port x, port ≤ x → x ∉ used → scanFrom used port fuel ≤ x := by
  intro fuel
  induction fuel with
  | zero => intro port x hpx _; simpa [scanFrom] using hpx
  | succ n ih =>
    intro port x hpx hxfree
    unfold scanFrom
    split
    · rename_i hmem
      have hne : port ≠ x := fun h => hxfree (h ▸ hmem)
      exact ih (port + 1) x (by omega) hxfree
    · exact hpx

/-- Pigeonhole: among the `used.length + 1` consecutive ports starting
anywhere, one is outside `used`. -/
theorem exists_free_within (used : List Nat) (port : Nat) :
    ∃ k, k ≤ used.length ∧ port + k ∉ used := by
  by_contra h
  push_neg at h
  have hsub : (Finset.range (used.length + 1)).image (fun k => port + k) ⊆
      used.toFinset := by
    intro x hx
    rcases Finset.mem_image.mp hx with ⟨k, hk, rfl⟩
    exact List.mem_toFinset.mpr (h k (Nat.lt_succ_iff.mp (Finset.mem_range.mp hk)))
  have hcard := Finset.card_le_card hsub
  rw [Finset.card_image_of_injective _ (fun a b hab => by omega)] at hcard
  rw [Finset.card_range] at hcard
  have := used.toFinset_card_le
  omega

/-- The scan starts at the base port and never goes below it. -/
theorem alloc_ge (s : SysState) : baseSSHPort ≤ (getNextAvailablePort s).1 :=
  scanFrom_ge _ _ _

/-- The chosen port is reserved by nothing: neither in the in-memory set nor
held by any non-terminated record. -/
theorem alloc_free (s : SysState) :
    (getNextAvailablePort s).1 ∉ s.usedPorts ++ nonTermPorts s := by
  apply scanFrom_not_mem
  obtain ⟨k, hk, hfree⟩ :=
    exists_free_within (s.usedPorts ++ nonTermPorts s) baseSSHPort
  exact ⟨k, by omega, hfree⟩

/-- The chosen port is the least unreserved one at or above the base. -/
theorem alloc_min (s : SysState) (x : Nat) (hx : baseSSHPort ≤ x)
    (hfree : x ∉ s.usedPorts ++ nonTermPorts s) :
    (getNextAvailablePort s).1 ≤ x :=
  scanFrom_min _ _ _ _ hx hfree

/-- Claim C8, amended: `reserve()` returns the smallest port at or above
`baseSSHPort` that is neither in the in-memory `usedPorts` set nor held by a
non-terminated record, and marks it reserved.  The scan has no upper bound
and the function has no failure outcome, so there is no exhaustion error and
no "configured range" whose end it could respect. -/
theorem C8_allocator_returns_least_unreserved (s : SysState) :
    baseSSHPort ≤ (getNextAvailablePort s).1 ∧
    (getNextAvailablePort s).1 ∉ reservedPorts s ∧
    (∀ x, baseSSHPort ≤ x → x ∉ reservedPorts s → (getNextAvailablePort s).1 ≤ x) ∧
    (getNextAvailablePort s).2.usedPorts =
      (getNextAvailablePort s).1 :: reservedPorts s ∧
    (getNextAvailablePort s).2.vms = s.vms :=
  ⟨alloc_ge s, alloc_free s, fun x hx hfree => alloc_min s x hx hfree, rfl, rfl⟩

/-- Claim C6, amended: `start` fails on an existing owned record exactly when
its status is `running` (already-running error) or `terminated`; for
`creating`, `error` or `stopped` it proceeds — given a funded owner and an
existing container — and leaves the VM `running`.  `stop` fails whenever the
status is not `running`.  A failing call returns before any mutation, so the
state is unchanged. -/
theorem C6_transition_guards (s : SysState) (vmId userId : Nat) (r : VMRec)
    (hfind : findVM s vmId userId = some r) :
    (r.status = .running → startVM s vmId userId = .error .alreadyRunning ∧
      applyOp s (.start vmId userId) = s) ∧
    (r.status = .terminated → startVM s vmId userId = .error .cannotStartTerminated ∧
      applyOp s (.start vmId userId) = s) ∧
    (r.status ≠ .running → stopVM s vmId userId = .error .notRunning ∧
      applyOp s (.stop vmId userId) = s) ∧
    ((r.status = .creating ∨ r.status = .error ∨ r.status = .stopped) →
      ∀ u, findUser s userId = some u → ¬ u.credits < (vmCostPerHour : Int) →
      ∀ c, findContainer s r.containerId = some c →
      ∃ s' r', startVM s vmId userId = .ok (s', r') ∧ r'.status = .running) := by
  refine ⟨?_, ?_, ?_, ?_⟩
  · intro h
    have hs : startVM s vmId userId = .error .alreadyRunning := by
      simp [startVM, hfind, h]
    exact ⟨hs, by simp [applyOp, hs]⟩
  · intro h
    have hs : startVM s vmId userId = .error .cannotStartTerminated := by
      simp [startVM, hfind, h]
    exact ⟨hs, by simp [applyOp, hs]⟩
  · intro h
    have hs : stopVM s vmId userId = .error .notRunning := by
      simp only [stopVM, hfind]
      rw [if_pos]
      simp only [Bool.not_eq_true', beq_eq_false_iff_ne, ne_eq]
      exact h
    exact ⟨hs, by simp [applyOp, hs]⟩
  · intro h u hu hcred c hc
    rcases h with h | h | h <;>
      · simp only [startVM, hfind, h, hu, hc]
        rw [if_neg hcred]
        exact ⟨_, _, rfl, rfl⟩

/-- Witness for C6 at `creatingState`: its record is in status `creating`,
owned by the funded user 1, with container 1 present. -/
theorem C6_transition_guards_witness :
    ((VMStatus.creating = .running →
        startVM creatingState 1 1 = .error .alreadyRunning ∧
        applyOp creatingState (.start 1 1) = creatingState) ∧
     (VMStatus.creating = .terminated →
        startVM creatingState 1 1 = .error .cannotStartTerminated ∧
        applyOp creatingState (.start 1 1) = creatingState) ∧
     (VMStatus.creating ≠ .running →
        stopVM creatingState 1 1 = .error .notRunning ∧
        applyOp creatingState (.stop 1 1) = creatingState) ∧
     ((VMStatus.creating = .creating ∨ VMStatus.creating = .error ∨
         VMStatus.creating = .stopped) →
      ∀ u, findUser creatingState 1 = some u → ¬ u.credits < (vmCostPerHour : Int) →
      ∀ c, findContainer creatingState 1 = some c →
      ∃ s' r', startVM creatingState 1 1 = .ok (s', r') ∧ r'.status = .running)) ∧
    (VMStatus.creating ≠ .running) :=
  ⟨C6_transition_guards creatingState 1 1
      { vmId := 1, ownerId := 1, containerId := 1, name := "c",
        status := .creating, sshPort := 30000, totalRuntime := 0,
        creditsConsumed := 0, lastStartedAt := none, lastStoppedAt := none }
      rfl,
   by decide⟩

/-- Claim C7, amended: provisioning fails with the quota error when the
owner's count of records in status `running`, `stopped` or `creating` (the
statuses the quota query `$in`-matches; `error` records do not count) has
reached `maxVMsPerUser`; below the quota, an owner whose balance is under one
hourly unit fails with the insufficient-credits error.  Either failure
returns before any mutation: no record is created and no port reserved. -/
theorem C7_provision_guards (s : SysState) (userId : Nat) (vmName : String) :
    (maxVMsPerUser ≤ (quotaVMs s userId).length →
      provisionVM s userId vmName = .error .maxVMLimit ∧
      applyOp s (.provision userId vmName) = s) ∧
    ((quotaVMs s userId).length < maxVMsPerUser →
      ∀ u, findUser s userId = some u → u.credits < (vmCostPerHour : Int) →
      provisionVM s userId vmName = .error .insufficientCredits ∧
      applyOp s (.provision userId vmName) = s) := by
  constructor
  · intro h
    have hp : provisionVM s userId vmName = .error .maxVMLimit := by
      simp only [provisionVM]
      rw [if_pos h]
    exact ⟨hp, by simp [applyOp, hp]⟩
  · intro h u hu hcred
    have hp : provisionVM s userId vmName = .error .insufficientCredits := by
      simp only [provisionVM]
      rw [if_neg (Nat.not_le.mpr h)]
      simp only [hu]
      rw [if_pos hcred]
    exact ⟨hp, by simp [applyOp, hp]⟩

/-- Witness for C7: the quota branch at `quotaFullState` (three running VMs)
and the credit branch at `poorState` (balance 5 < 10). -/
theorem C7_provision_guards_witness :
    (provisionVM quotaFullState 1 "x" = .error .maxVMLimit ∧
      applyOp quotaFullState (.provision 1 "x") = quotaFullState) ∧
    (provisionVM poorState 1 "x" = .error .insufficientCredits ∧
      applyOp poorState (.provision 1 "x") = poorState) :=
  ⟨(C7_provision_guards quotaFullState 1 "x").1 (by decide),
   (C7_provision_guards poorState 1 "x").2 (by decide)
     { userId := 1, credits := 5 } rfl (by decide)⟩

/-! ## Record-store lemmas -/

/-- Every member is bounded by the running maximum. -/
theorem le_foldr_max (l : List Nat) (x : Nat) (h : x ∈ l) :
    x ≤ l.foldr max 0 := by
  induction l with
  | nil => cases h
  | cons a t ih =>
    rcases List.mem_cons.mp h with h | h
    · subst h; exact Nat.le_max_left _ _
    · exact Nat.le_trans (ih h) (Nat.le_max_right _ _)

/-- Looking a record up by id after a save that can only rewrite records of
id `w` without changing their id: the lookup result is the old one,
transformed when it is the record with id `w`. -/
theorem find?_vmId_updateVM (vms : List VMRec) (w : Nat) (f : VMRec → VMRec)
    (hf : ∀ r, r.vmId = w → (f r).vmId = w) (v : Nat) :
    (updateVM vms w f).find? (fun r => r.vmId == v) =
      (vms.find? (fun r => r.vmId == v)).map
        (fun r => if r.vmId == w then f r else r) := by
  unfold updateVM
  rw [List.find?_map]
  have hpred : ((fun r : VMRec => r.vmId == v) ∘
      (fun r : VMRec => if r.vmId == w then f r else r)) =
      (fun r : VMRec => r.vmId == v) := by
    funext r
    by_cases h : r.vmId = w
    · simp [Function.comp, h, hf r h]
    · simp [Function.comp, h]
  rw [hpred]

/-- Lookup at an id other than the saved one is untouched. -/
theorem find?_vmId_updateVM_ne (vms : List VMRec) (w : Nat) (f : VMRec → VMRec)
    (hf : ∀ r, r.vmId = w → (f r).vmId = w) (v : Nat) (hne : v ≠ w) :
    (updateVM vms w f).find? (fun r => r.vmId == v) =
      vms.find? (fun r => r.vmId == v) := by
  rw [find?_vmId_updateVM vms w f hf v]
  cases hfind : vms.find? (fun r => r.vmId == v) with
  | none => rfl
  | some r =>
    have hv : r.vmId = v := by simpa using List.find?_some hfind
    simp [hv, hne]

/-- A save keyed at an id no existing record carries only appends the
transformed fresh record. -/
theorem updateVM_append_fresh (l : List VMRec) (rec0 : VMRec) (w : Nat)
    (f : VMRec → VMRec) (hl : ∀ r ∈ l, r.vmId ≠ w) (h0 : rec0.vmId = w) :
    updateVM (l ++ [rec0]) w f = l ++ [f rec0] := by
  unfold updateVM
  rw [List.map_append]
  congr 1
  · conv_rhs => rw [← List.map_id l]
    apply List.map_congr_left
    intro r hr
    simp [hl r hr]
  · simp [h0]

/-- The fresh id exceeds every stored id. -/
theorem freshVmId_not_used (s : SysState) (r : VMRec) (h : r ∈ s.vms) :
    r.vmId ≠ freshVmId s := by
  have := le_foldr_max (s.vms.map (fun q => q.vmId)) r.vmId
    (List.mem_map_of_mem _ h)
  unfold freshVmId
  omega

/-! ## Inversion lemmas: what a successful operation did to the record store -/

/-- A successful provision appends one fresh `creating` record and then saves
it as `running`; no other record is rewritten. -/
theorem provisionVM_ok_inv {s : SysState} {u : Nat} {nm : String}
    {s' : SysState} {vm : VMRec} (h : provisionVM s u nm = .ok (s', vm)) :
    ∃ rec0 : VMRec, rec0.vmId = freshVmId s ∧
      s'.vms = updateVM (s.vms ++ [rec0]) (freshVmId s) (markRunning s.now) ∧
      s'.users = s.users := by
  unfold provisionVM at h
  split at h
  · cases h
  · split at h
    · cases h
    · split at h
      · cases h
      · rw [Except.ok.injEq, Prod.mk.injEq] at h
        obtain ⟨h1, _⟩ := h
        subst h1
        exact ⟨_, rfl, rfl, rfl⟩

/-- A successful start targeted an existing owned record that was neither
running nor terminated, and rewrote the store only at the targeted id. -/
theorem startVM_ok_inv {s : SysState} {v u : Nat} {s' : SysState} {vm : VMRec}
    (h : startVM s v u = .ok (s', vm)) :
    ∃ r0, findVM s v u = some r0 ∧
      r0.status ≠ VMStatus.running ∧ r0.status ≠ VMStatus.terminated ∧
      s'.vms = updateVM s.vms v (markRunning s.now) := by
  unfold startVM at h
  split at h
  · cases h
  · rename_i r0 hr0
    split at h
    · cases h
    · split at h
      · cases h
      · split at h
        · cases h
        · split at h
          · cases h
          · split at h
            · cases h
            · rw [Except.ok.injEq, Prod.mk.injEq] at h
              obtain ⟨h1, _⟩ := h
              subst h1
              refine ⟨r0, hr0, ?_, ?_, rfl⟩ <;> simp_all

/-- A successful stop targeted an existing owned running record; lookups at
any other id are untouched by it. -/
theorem stopVM_ok_inv {s : SysState} {v u : Nat} {s' : SysState} {vm : VMRec}
    (h : stopVM s v u = .ok (s', vm)) :
    ∃ r0, findVM s v u = some r0 ∧ r0.status = VMStatus.running ∧
      ∀ x, x ≠ v → s'.vms.find? (fun r => r.vmId == x) =
        s.vms.find? (fun r => r.vmId == x) := by
  unfold stopVM at h
  split at h
  · cases h
  · rename_i r0 hr0
    split at h
    · cases h
    · rename_i hrun
      have hid : r0.vmId = v := by
        have := List.find?_some hr0
        simp only [Bool.and_eq_true, beq_iff_eq] at this
        exact this.1
      have hst : r0.status = VMStatus.running := by
        simp only [Bool.not_eq_true', Bool.not_eq_false, beq_iff_eq] at hrun
        exact hrun
      split at h
      · cases h
      · split at h <;>
        · rw [Except.ok.injEq, Prod.mk.injEq] at h
          obtain ⟨h1, _⟩ := h
          subst h1
          refine ⟨r0, hr0, hst, fun x hx => ?_⟩
          refine find?_vmId_updateVM_ne s.vms v _ ?_ x hx
          exact fun r _ => hid

/-- A successful terminate rewrote the store only at the targeted id, setting
it `terminated`. -/
theorem terminateVM_ok_inv {s : SysState} {v u : Nat} {ok2 : Bool}
    {s' : SysState} (h : terminateVM s v u ok2 = .ok s') :
    s'.vms = updateVM s.vms v markTerminated := by
  unfold terminateVM at h
  split at h
  · cases h
  · rw [Except.ok.injEq] at h
    subst h
    show updateVM (freePort _ _).vms _ _ = _
    unfold freePort
    split <;> try rfl
    split <;> try rfl
    split <;> rfl

/-- A successful status query either left the store alone, or targeted a
non-terminated record and rewrote the store only at that id with a pure
status change. -/
theorem getVMStatus_ok_inv {s : SysState} {v u : Nat} {s' : SysState}
    {vm : VMRec} (h : getVMStatus s v u = .ok (s', vm)) :
    s'.vms = s.vms ∨
    ∃ r0 st, findVM s v u = some r0 ∧ r0.status ≠ VMStatus.terminated ∧
      s'.vms = updateVM s.vms v (markStatus st) := by
  unfold getVMStatus at h
  split at h
  · cases h
  · rename_i r0 hr0
    split at h
    · split at h <;> (dsimp only [] at h) <;> split at h <;>
        (rw [Except.ok.injEq, Prod.mk.injEq] at h
         obtain ⟨h1, h2⟩ := h
         subst h1
         first
         | exact Or.inl rfl
         | (rename_i hcond
            refine Or.inr ⟨r0, _, hr0, ?_, rfl⟩
            simp only [Bool.and_eq_true, Bool.not_eq_true', beq_eq_false_iff_ne,
              ne_eq] at hcond
            exact hcond.1))
    · split at h <;>
        (rw [Except.ok.injEq, Prod.mk.injEq] at h
         obtain ⟨h1, h2⟩ := h
         subst h1
         first
         | exact Or.inl rfl
         | (rename_i hcond
            refine Or.inr ⟨r0, _, hr0, ?_, rfl⟩
            simpa using hcond))

/-- A successful admin force-stop either found no record for the container —
store untouched — or rewrote the store only at the id of the first record
with that container id, setting it `stopped`; in the latter case the
container existed and was running. -/
theorem forceStopContainer_ok_inv {s : SysState} {cid : Nat} {s' : SysState}
    (h : forceStopContainer s cid = .ok s') :
    s'.vms = s.vms ∨
    ∃ r0 c, s.vms.find? (fun r => r.containerId == cid) = some r0 ∧
      findContainer s cid = some c ∧ c.running = true ∧
      s'.vms = updateVM s.vms r0.vmId (markStopped s.now) := by
  unfold forceStopContainer at h
  split at h
  · cases h
  · rename_i c hc
    split at h
    · cases h
    · rename_i hrun
      dsimp only [] at h
      split at h
      · rename_i r0 hr0
        rw [Except.ok.injEq] at h
        subst h
        exact Or.inr ⟨r0, c, hr0, hc, by simpa using hrun, rfl⟩
      · rw [Except.ok.injEq] at h
        subst h
        exact Or.inl rfl

/-- A successful admin force-remove either found no record — store
untouched — or rewrote the store only at the found record's id, setting it
`terminated`. -/
theorem forceRemoveContainer_ok_inv {s : SysState} {cid : Nat} {s' : SysState}
    (h : forceRemoveContainer s cid = .ok s') :
    s'.vms = s.vms ∨
    ∃ r0, s.vms.find? (fun r => r.containerId == cid) = some r0 ∧
      s'.vms = updateVM s.vms r0.vmId markTerminated := by
  unfold forceRemoveContainer at h
  split at h
  · cases h
  · dsimp only [] at h
    split at h
    · rename_i r0 hr0
      rw [Except.ok.injEq] at h
      subst h
      exact Or.inr ⟨r0, hr0, rfl⟩
    · rw [Except.ok.injEq] at h
      subst h
      exact Or.inl rfl

/-- Claim C2, amended: a `terminated` record stays `terminated` under every
operation — provision, start, stop, terminate, status reconciliation and
admin force-remove — with a single exception: an admin force-stop addressed
at the terminated record's container, while that container still exists and
is running (possible only after a terminate whose cleanup failed), rewrites
the record to `stopped`. -/
theorem C2_terminated_is_permanent (s : SysState) (v : Nat) (op : Op)
    (hnodup : (s.vms.map (fun r => r.vmId)).Nodup)
    (hterm : statusOf s v = some VMStatus.terminated) :
    statusOf (applyOp s op) v = some VMStatus.terminated ∨
    ∃ r c, s.vms.find? (fun q => q.vmId == v) = some r ∧
      op = .adminForceStop r.containerId ∧
      findContainer s r.containerId = some c ∧ c.running = true ∧
      statusOf (applyOp s op) v = some VMStatus.stopped := by
  obtain ⟨r, hfind, hst⟩ :
      ∃ r, s.vms.find? (fun q => q.vmId == v) = some r ∧
        r.status = VMStatus.terminated := by
    unfold statusOf at hterm
    cases hfd : s.vms.find? (fun q => q.vmId == v) with
    | none => rw [hfd] at hterm; cases hterm
    | some r => rw [hfd] at hterm; exact ⟨r, rfl, by simpa using hterm⟩
  have hrv : r.vmId = v := by simpa using List.find?_some hfind
  have hrmem : r ∈ s.vms := List.mem_of_find?_eq_some hfind
  cases op with
  | provision u nm =>
    cases hp : provisionVM s u nm with
    | error e => left; simpa [applyOp, hp] using hterm
    | ok p =>
      obtain ⟨rec0, hrec0, hvms, _⟩ := provisionVM_ok_inv hp
      left
      have happ : applyOp s (.provision u nm) = p.1 := by simp [applyOp, hp]
      rw [happ]
      unfold statusOf
      rw [hvms, find?_vmId_updateVM (s.vms ++ [rec0]) (freshVmId s)
        (markRunning s.now) (fun q hq => hq) v, List.find?_append, hfind]
      have hne : r.vmId ≠ freshVmId s := freshVmId_not_used s r hrmem
      simp [Option.or, hne, hst]
  | start v' u' =>
    cases hs : startVM s v' u' with
    | error e => left; simpa [applyOp, hs] using hterm
    | ok p =>
      obtain ⟨r0, hr0find, _, hnterm, hvms⟩ := startVM_ok_inv hs
      unfold findVM at hr0find
      have hr0v : r0.vmId = v' := by
        have := List.find?_some hr0find
        simp only [Bool.and_eq_true, beq_iff_eq] at this
        exact this.1
      have hr0mem : r0 ∈ s.vms := List.mem_of_find?_eq_some hr0find
      by_cases hvv : v = v'
      · exact absurd (congrArg VMRec.status
          (List.inj_on_of_nodup_map hnodup hr0mem hrmem (by rw [hr0v, hrv, hvv])))
          (by rw [hst]; exact fun hx => hnterm hx)
      · left
        have happ : applyOp s (.start v' u') = p.1 := by simp [applyOp, hs]
        rw [happ]
        unfold statusOf
        rw [hvms, find?_vmId_updateVM_ne s.vms v' (markRunning s.now)
          (fun q hq => hq) v hvv, hfind]
        simpa using hst
  | stop v' u' =>
    cases hs : stopVM s v' u' with
    | error e => left; simpa [applyOp, hs] using hterm
    | ok p =>
      obtain ⟨r0, hr0find, hr0run, hpres⟩ := stopVM_ok_inv hs
      unfold findVM at hr0find
      have hr0v : r0.vmId = v' := by
        have := List.find?_some hr0find
        simp only [Bool.and_eq_true, beq_iff_eq] at this
        exact this.1
      have hr0mem : r0 ∈ s.vms := List.mem_of_find?_eq_some hr0find
      by_cases hvv : v = v'
      · have : r0 = r :=
          List.inj_on_of_nodup_map hnodup hr0mem hrmem (by rw [hr0v, hrv, hvv])
        rw [this, hst] at hr0run
        cases hr0run
      · left
        have happ : applyOp s (.stop v' u') = p.1 := by simp [applyOp, hs]
        rw [happ]
        unfold statusOf
        rw [hpres v hvv, hfind]
        simpa using hst
  | terminate v' u' ok2 =>
    cases ht : terminateVM s v' u' ok2 with
    | error e => left; simpa [applyOp, ht] using hterm
    | ok s' =>
      left
      have hvms := terminateVM_ok_inv ht
      have happ : applyOp s (.terminate v' u' ok2) = s' := by simp [applyOp, ht]
      rw [happ]
      unfold statusOf
      rw [hvms, find?_vmId_updateVM s.vms v' markTerminated
        (fun q hq => hq) v, hfind]
      by_cases hb : r.vmId = v' <;> simp [hb, markTerminated, hst]
  | statusQuery v' u' =>
    cases hq : getVMStatus s v' u' with
    | error e => left; simpa [applyOp, hq] using hterm
    | ok p =>
      have happ : applyOp s (.statusQuery v' u') = p.1 := by simp [applyOp, hq]
      rcases getVMStatus_ok_inv hq with hsame | ⟨r0, st, hr0find, hnterm, hvms⟩
      · left
        rw [happ]
        unfold statusOf
        rw [hsame, hfind]
        simpa using hst
      · unfold findVM at hr0find
        have hr0v : r0.vmId = v' := by
          have := List.find?_some hr0find
          simp only [Bool.and_eq_true, beq_iff_eq] at this
          exact this.1
        have hr0mem : r0 ∈ s.vms := List.mem_of_find?_eq_some hr0find
        by_cases hvv : v = v'
        · exact absurd (congrArg VMRec.status
            (List.inj_on_of_nodup_map hnodup hr0mem hrmem (by rw [hr0v, hrv, hvv])))
            (by rw [hst]; exact fun hx => hnterm hx)
        · left
          rw [happ]
          unfold statusOf
          rw [hvms, find?_vmId_updateVM_ne s.vms v' (markStatus st)
            (fun q hq => hq) v hvv, hfind]
          simpa using hst
  | adminForceStop cid =>
    cases hf : forceStopContainer s cid with
    | error e => left; simpa [applyOp, hf] using hterm
    | ok s' =>
      have happ : applyOp s (.adminForceStop cid) = s' := by simp [applyOp, hf]
      rcases forceStopContainer_ok_inv hf with hsame | ⟨r0, c, hr0find, hc, hcrun, hvms⟩
      · left
        rw [happ]
        unfold statusOf
        rw [hsame, hfind]
        simpa using hst
      · have hr0cid : r0.containerId = cid := by
          simpa using List.find?_some hr0find
        have hr0mem : r0 ∈ s.vms := List.mem_of_find?_eq_some hr0find
        by_cases hvv : r0.vmId = v
        · right
          have hrr : r0 = r :=
            List.inj_on_of_nodup_map hnodup hr0mem hrmem (by rw [hrv, hvv])
          refine ⟨r, c, hfind, by rw [← hr0cid, hrr],
            by rw [← hrr, hr0cid]; exact hc, hcrun, ?_⟩
          rw [happ]
          unfold statusOf
          rw [hvms, hrr, hrv, find?_vmId_updateVM s.vms v (markStopped s.now)
            (fun q hq => hq) v, hfind]
          simp [markStopped, hrv]
        · left
          rw [happ]
          unfold statusOf
          rw [hvms, find?_vmId_updateVM_ne s.vms r0.vmId (markStopped s.now)
            (fun q hq => hq) v (fun hx => hvv hx.symm), hfind]
          simpa using hst
  | adminForceRemove cid =>
    cases hf : forceRemoveContainer s cid with
    | error e => left; simpa [applyOp, hf] using hterm
    | ok s' =>
      left
      have happ : applyOp s (.adminForceRemove cid) = s' := by simp [applyOp, hf]
      rcases forceRemoveContainer_ok_inv hf with hsame | ⟨r0, hr0find, hvms⟩
      · rw [happ]
        unfold statusOf
        rw [hsame, hfind]
        simpa using hst
      · rw [happ]
        unfold statusOf
        rw [hvms, find?_vmId_updateVM s.vms r0.vmId markTerminated
          (fun q hq => hq) v, hfind]
        by_cases hb : r.vmId = r0.vmId <;> simp [hb, markTerminated, hst]

/-- Witness for C2 at `termRecState`: a start aimed at the terminated record
leaves it terminated. -/
theorem C2_terminated_is_permanent_witness :
    statusOf (applyOp termRecState (.start 1 1)) 1 = some VMStatus.terminated ∨
    ∃ r c, termRecState.vms.find? (fun q => q.vmId == 1) = some r ∧
      Op.start 1 1 = .adminForceStop r.containerId ∧
      findContainer termRecState r.containerId = some c ∧ c.running = true ∧
      statusOf (applyOp termRecState (.start 1 1)) 1 = some VMStatus.stopped :=
  C2_terminated_is_permanent termRecState 1 (.start 1 1) (by decide) (by decide)

/-! ## Port-allocation machinery for the provision/terminate theorems -/

/-- Ids are untouched by an id-preserving save. -/
theorem map_vmId_updateVM (l : List VMRec) (v : Nat) (f : VMRec → VMRec)
    (hf : ∀ r, (f r).vmId = r.vmId) :
    (updateVM l v f).map (fun r => r.vmId) = l.map (fun r => r.vmId) := by
  unfold updateVM
  rw [List.map_map]
  apply List.map_congr_left
  intro r _
  by_cases h : r.vmId = v <;> simp [Function.comp, h, hf]

/-- Unfolding a save over a cons cell. -/
theorem updateVM_cons (a : VMRec) (t : List VMRec) (v : Nat) (f : VMRec → VMRec) :
    updateVM (a :: t) v f = (if a.vmId == v then f a else a) :: updateVM t v f :=
  rfl

/-- Terminating the records of one id shrinks the non-terminated sublist to
the non-terminated records of other ids. -/
theorem filter_nonterm_updateVM_term (l : List VMRec) (v : Nat) :
    (updateVM l v markTerminated).filter
        (fun r => !(r.status == VMStatus.terminated)) =
      l.filter (fun r => !(r.vmId == v) && !(r.status == VMStatus.terminated)) := by
  induction l with
  | nil => rfl
  | cons a t ih =>
    rw [updateVM_cons]
    by_cases hv : a.vmId = v <;> by_cases hst : a.status = VMStatus.terminated <;>
      simp [List.filter_cons, markTerminated, hv, hst, ih]

/-- Full shape of a successful provision: the store grows by exactly the
returned record, which is fresh, running, owned by the caller and holds the
freshly allocated port; the user table and clock are untouched and the
allocated port has been pushed onto the in-memory set. -/
theorem provisionVM_ok_append {s : SysState} {u : Nat} {nm : String}
    {s' : SysState} {vm : VMRec} (h : provisionVM s u nm = .ok (s', vm)) :
    s'.vms = s.vms ++ [vm] ∧
    vm.vmId = freshVmId s ∧ vm.ownerId = u ∧ vm.status = VMStatus.running ∧
    vm.sshPort = (getNextAvailablePort s).1 ∧
    s'.usedPorts = (getNextAvailablePort s).1 :: (s.usedPorts ++ nonTermPorts s) ∧
    s'.users = s.users ∧ s'.now = s.now := by
  unfold provisionVM at h
  split at h
  · cases h
  · split at h
    · cases h
    · split at h
      · cases h
      · rw [Except.ok.injEq, Prod.mk.injEq] at h
        obtain ⟨h1, h2⟩ := h
        subst h1
        subst h2
        refine ⟨?_, rfl, rfl, rfl, rfl, rfl, rfl, rfl⟩
        exact updateVM_append_fresh s.vms _ (freshVmId s) (markRunning s.now)
          (fun r hr => freshVmId_not_used s r hr) rfl

/-- A provision failing or succeeding never disturbs another owner's quota
count, user entry, or eligibility. -/
theorem eligible_after_provision {s : SysState} {u0 : Nat} {nm : String}
    {s' : SysState} {vm : VMRec} (h : provisionVM s u0 nm = .ok (s', vm))
    {u : Nat} (hne : u ≠ u0) (helig : eligibleOwner s u) :
    eligibleOwner s' u := by
  obtain ⟨hvms, _, hown, _, _, _, husers, _⟩ := provisionVM_ok_append h
  obtain ⟨hq, usr, husr, hcred⟩ := helig
  constructor
  · unfold quotaVMs at hq ⊢
    rw [hvms, List.filter_append]
    have hof : (vm.ownerId == u) = false := by
      rw [hown]
      exact beq_eq_false_iff_ne.mpr (fun hx => hne hx.symm)
    simpa [hof] using hq
  · exact ⟨usr, by unfold findUser at husr ⊢; rw [husers]; exact husr, hcred⟩

/-- Full shape of a successful terminate: the targeted owned record exists,
the store is rewritten only at its id to `terminated`, its port is deleted
from the in-memory set, and users and clock are untouched. -/
theorem terminateVM_ok_spec {s : SysState} {v u : Nat} {ok2 : Bool}
    {s' : SysState} (h : terminateVM s v u ok2 = .ok s') :
    ∃ r0, findVM s v u = some r0 ∧
      s'.vms = updateVM s.vms v markTerminated ∧
      s'.usedPorts = s.usedPorts.filter (fun q => !(q == r0.sshPort)) ∧
      s'.users = s.users ∧ s'.now = s.now := by
  unfold terminateVM at h
  split at h
  · cases h
  · rename_i r0 hr0
    rw [Except.ok.injEq] at h
    subst h
    refine ⟨r0, hr0, ?_, ?_, ?_, ?_⟩ <;>
      (first
        | (show updateVM (freePort _ _).vms _ _ = _
           unfold freePort
           split <;> try rfl
           split <;> try rfl
           split <;> rfl)
        | (unfold freePort
           split <;> try rfl
           split <;> try rfl
           split <;> rfl))

/-- Successful provisioning under the eligibility preconditions. -/
theorem provisionVM_ok_of_eligible (s : SysState) (u : Nat) (nm : String)
    (h : eligibleOwner s u) :
    ∃ s' vm, provisionVM s u nm = .ok (s', vm) := by
  obtain ⟨hq, usr, husr, hcred⟩ := h
  unfold provisionVM
  rw [if_neg (Nat.not_le.mpr hq)]
  simp only [husr]
  rw [if_neg hcred]
  exact ⟨_, _, rfl⟩

/-- A terminate addressed at an existing owned record always succeeds. -/
theorem terminateVM_ok_of_found (s : SysState) (v u : Nat) (ok2 : Bool)
    (r : VMRec) (hr : findVM s v u = some r) :
    ∃ s', terminateVM s v u ok2 = .ok s' := by
  unfold terminateVM
  rw [hr]
  exact ⟨_, rfl⟩

/-- The port-allocation invariant is preserved by a successful provision. -/
theorem portInv_provision {s : SysState} {u : Nat} {nm : String}
    {s' : SysState} {vm : VMRec} (hInv : PortInv s)
    (h : provisionVM s u nm = .ok (s', vm)) : PortInv s' := by
  obtain ⟨hvms, hid, hown, hstat, hport, hused, husers, hnow⟩ :=
    provisionVM_ok_append h
  obtain ⟨hnd, hpw, hbase⟩ := hInv
  have hnt : nonTermRecs s' = nonTermRecs s ++ [vm] := by
    unfold nonTermRecs
    rw [hvms, List.filter_append]
    congr 1
    simp [hstat]
  refine ⟨?_, ?_, ?_⟩
  · rw [hvms, List.map_append, List.nodup_append]
    refine ⟨hnd, List.nodup_singleton _, ?_⟩
    intro a ha hb
    simp only [List.map_cons, List.map_nil, List.mem_singleton] at hb
    obtain ⟨r, hrmem, hra⟩ := List.mem_map.mp ha
    exact freshVmId_not_used s r hrmem (by rw [hra, hb, hid])
  · rw [hnt, List.pairwise_append]
    refine ⟨hpw, List.pairwise_singleton _ _, ?_⟩
    intro a ha b hb
    simp only [List.mem_singleton] at hb
    subst hb
    have hmem : a.sshPort ∈ nonTermPorts s := List.mem_map_of_mem _ ha
    rw [hport]
    intro heq
    exact alloc_free s (List.mem_append_right _ (heq ▸ hmem))
  · intro r hr
    rw [hnt] at hr
    rcases List.mem_append.mp hr with hr | hr
    · exact hbase r hr
    · simp only [List.mem_singleton] at hr
      subst hr
      rw [hport]
      exact alloc_ge s

/-- The port-allocation invariant is preserved by a successful terminate. -/
theorem portInv_terminate {s : SysState} {v u : Nat} {ok2 : Bool}
    {s' : SysState} (hInv : PortInv s) (h : terminateVM s v u ok2 = .ok s') :
    PortInv s' := by
  obtain ⟨r0, _, hvms, hused, _, _⟩ := terminateVM_ok_spec h
  obtain ⟨hnd, hpw, hbase⟩ := hInv
  have hnt : nonTermRecs s' =
      s.vms.filter (fun r => !(r.vmId == v) && !(r.status == VMStatus.terminated)) := by
    unfold nonTermRecs
    rw [hvms]
    exact filter_nonterm_updateVM_term _ _
  have hsub : List.Sublist
      (s.vms.filter (fun r => !(r.vmId == v) && !(r.status == VMStatus.terminated)))
      (nonTermRecs s) := by
    unfold nonTermRecs
    rw [← List.filter_filter]
    exact List.filter_sublist _
  refine ⟨?_, ?_, ?_⟩
  · rw [hvms, map_vmId_updateVM s.vms v markTerminated (fun r => rfl)]
    exact hnd
  · rw [hnt]
    exact List.Pairwise.sublist hsub hpw
  · intro r hr
    rw [hnt] at hr
    exact hbase r (hsub.subset hr)

/-- Any provision/terminate request — succeeding or failing — preserves the
port-allocation invariant. -/
theorem portInv_applyOp (s : SysState) (op : Op) (hInv : PortInv s)
    (hpt : isPT op = true) : PortInv (applyOp s op) := by
  cases op with
  | provision u nm =>
    cases hp : provisionVM s u nm with
    | error e => simpa [applyOp, hp] using hInv
    | ok p =>
      have := portInv_provision hInv hp
      simpa [applyOp, hp] using this
  | terminate v u ok2 =>
    cases ht : terminateVM s v u ok2 with
    | error e => simpa [applyOp, ht] using hInv
    | ok s2 =>
      have := portInv_terminate hInv ht
      simpa [applyOp, ht] using this
  | start v u => simp [isPT] at hpt
  | stop v u => simp [isPT] at hpt
  | statusQuery v u => simp [isPT] at hpt
  | adminForceStop c => simp [isPT] at hpt
  | adminForceRemove c => simp [isPT] at hpt

/-- The invariant holds at every state reachable by provision/terminate
sequences. -/
theorem portInv_applySeq (s : SysState) (ops : List Op) (hInv : PortInv s)
    (hops : ∀ op ∈ ops, isPT op = true) : PortInv (applySeq s ops) := by
  induction ops generalizing s with
  | nil => exact hInv
  | cons op rest ih =>
    exact ih (applyOp s op)
      (portInv_applyOp s op hInv (hops op (List.mem_cons_self op rest)))
      (fun o ho => hops o (List.mem_cons_of_mem op ho))

/-- After terminating a non-terminated record, its port is completely free:
deleted from the in-memory set and held by no non-terminated record. -/
theorem portFree_after_terminate {s : SysState} {v u : Nat} {ok2 : Bool}
    {s' : SysState} {r : VMRec} (hInv : PortInv s)
    (hr : findVM s v u = some r) (hterm : r.status ≠ VMStatus.terminated)
    (h : terminateVM s v u ok2 = .ok s') : portIsFree s' r.sshPort := by
  obtain ⟨r0, hr0, hvms, hused, _, _⟩ := terminateVM_ok_spec h
  rw [hr] at hr0
  injection hr0 with hrr
  subst hrr
  have hrv : r.vmId = v := by
    unfold findVM at hr
    have := List.find?_some hr
    simp only [Bool.and_eq_true, beq_iff_eq] at this
    exact this.1
  have hrmem : r ∈ s.vms := by
    unfold findVM at hr
    exact List.mem_of_find?_eq_some hr
  constructor
  · rw [hused]
    intro hmem
    have := (List.mem_filter.mp hmem).2
    simp at this
  · intro q hq
    unfold nonTermRecs at hq
    rw [hvms, filter_nonterm_updateVM_term] at hq
    obtain ⟨hqmem, hqcond⟩ := List.mem_filter.mp hq
    simp only [Bool.and_eq_true, Bool.not_eq_true', beq_eq_false_iff_ne] at hqcond
    obtain ⟨hqv, hqterm⟩ := hqcond
    have hqmem' : q ∈ nonTermRecs s :=
      List.mem_filter.mpr ⟨hqmem, by simpa using hqterm⟩
    have hrmem' : r ∈ nonTermRecs s :=
      List.mem_filter.mpr ⟨hrmem, by simpa using hterm⟩
    have hqr : q ≠ r := fun hx => hqv (by rw [hx, hrv])
    have hsymm : Symmetric (fun a b : VMRec => a.sshPort ≠ b.sshPort) :=
      fun a b hab hx => hab hx.symm
    exact hInv.2.1.forall hsymm hqmem' hrmem' hqr

/-- A port is free in the propositional sense exactly when the boolean test
accepts it. -/
theorem portIsFree_iff (s : SysState) (p : Nat) :
    portIsFree s p ↔ portFreeB s p = true := by
  unfold portIsFree portFreeB nonTermPorts
  simp only [Bool.and_eq_true, decide_eq_true_eq, List.mem_map, not_exists]
  tauto

/-- The freshly allocated port passes the free test. -/
theorem portFreeB_alloc (s : SysState) :
    portFreeB s (getNextAvailablePort s).1 = true := by
  have hfree := alloc_free s
  unfold portFreeB
  simp only [Bool.and_eq_true, decide_eq_true_eq]
  exact ⟨fun hx => hfree (List.mem_append_left _ hx),
         fun hx => hfree (List.mem_append_right _ hx)⟩

/-- A provision makes exactly its own port unfree and leaves every other
port's freeness alone. -/
theorem portFreeB_after_provision {s : SysState} {u : Nat} {nm : String}
    {s' : SysState} {vm : VMRec} (h : provisionVM s u nm = .ok (s', vm))
    (x : Nat) : portFreeB s' x = (portFreeB s x && !(x == vm.sshPort)) := by
  obtain ⟨hvms, _, _, hstat, hport, hused, _, _⟩ := provisionVM_ok_append h
  have hnt : nonTermPorts s' = nonTermPorts s ++ [vm.sshPort] := by
    unfold nonTermPorts nonTermRecs
    rw [hvms, List.filter_append, List.map_append]
    congr 1
    simp [hstat]
  unfold portFreeB
  rw [hused, hnt, Bool.eq_iff_iff]
  simp only [Bool.and_eq_true, decide_eq_true_eq, List.mem_cons, List.mem_append,
    Bool.not_eq_true', beq_eq_false_iff_ne, ne_eq, ← hport]
  tauto

/-- Allocating a free port strictly below `p` decreases the count of free
ports below `p` by exactly one. -/
theorem freeCount_after_provision {s : SysState} {u : Nat} {nm : String}
    {s' : SysState} {vm : VMRec} (h : provisionVM s u nm = .ok (s', vm))
    {p : Nat} (hfreeq : portFreeB s vm.sshPort = true)
    (hge : baseSSHPort ≤ vm.sshPort) (hlt : vm.sshPort < p) :
    freeCount s' p + 1 = freeCount s p := by
  unfold freeCount
  have hset : (Finset.Ico baseSSHPort p).filter (fun q => portFreeB s' q = true) =
      ((Finset.Ico baseSSHPort p).filter
        (fun q => portFreeB s q = true)).erase vm.sshPort := by
    ext x
    simp only [Finset.mem_filter, Finset.mem_erase,
      portFreeB_after_provision h x, Bool.and_eq_true, Bool.not_eq_true',
      beq_eq_false_iff_ne, ne_eq]
    constructor
    · rintro ⟨h1, h2, h3⟩
      exact ⟨h3, h1, h2⟩
    · rintro ⟨h1, h2, h3⟩
      exact ⟨h2, h3, h1⟩
  have hqmem : vm.sshPort ∈ (Finset.Ico baseSSHPort p).filter
      (fun q => portFreeB s q = true) :=
    Finset.mem_filter.mpr ⟨Finset.mem_Ico.mpr ⟨hge, hlt⟩, hfreeq⟩
  have hpos : 0 < ((Finset.Ico baseSSHPort p).filter
      (fun q => portFreeB s q = true)).card :=
    Finset.card_pos.mpr ⟨vm.sshPort, hqmem⟩
  rw [hset, Finset.card_erase_of_mem hqmem]
  omega

/-- A port passing the free test is unreserved. -/
theorem portFreeB_not_mem {s : SysState} {p : Nat}
    (h : portFreeB s p = true) : p ∉ s.usedPorts ++ nonTermPorts s := by
  unfold portFreeB at h
  simp only [Bool.and_eq_true, decide_eq_true_eq] at h
  intro hmem
  rcases List.mem_append.mp hmem with hm | hm
  · exact h.1 hm
  · exact h.2 hm

/-- Lowest-free-first allocation eventually reaches any free port: with `n`
free ports still below `p` and more than `n` distinct eligible owners on
hand, a chain of provisions ends with one that is handed exactly `p`. -/
theorem provision_reuses_port (n : Nat) :
    ∀ (s : SysState) (p : Nat) (owners : List Nat),
      freeCount s p = n → PortInv s → portIsFree s p → baseSSHPort ≤ p →
      owners.Nodup → (∀ o ∈ owners, eligibleOwner s o) → n < owners.length →
      ∃ (ops : List Op) (u' : Nat) (sMid sFin : SysState) (vm : VMRec),
        (∀ op ∈ ops, isPT op = true) ∧ applySeq s ops = sMid ∧
        provisionVM sMid u' "vm" = .ok (sFin, vm) ∧ vm.sshPort = p := by
  induction n with
  | zero =>
    intro s p owners hcount hInv hfree hbase hnd helig hlen
    cases owners with
    | nil => simp at hlen
    | cons u0 rest =>
      obtain ⟨s2, vm, hp⟩ := provisionVM_ok_of_eligible s u0 "vm"
        (helig u0 (List.mem_cons_self u0 rest))
      obtain ⟨_, _, _, _, hport, _, _, _⟩ := provisionVM_ok_append hp
      have hfb : portFreeB s p = true := (portIsFree_iff s p).mp hfree
      have hqle : vm.sshPort ≤ p := by
        rw [hport]
        exact alloc_min s p hbase (portFreeB_not_mem hfb)
      have hqnotlt : ¬ vm.sshPort < p := by
        intro hqlt
        have hqfree : portFreeB s vm.sshPort = true := by
          rw [hport]; exact portFreeB_alloc s
        have hqge : baseSSHPort ≤ vm.sshPort := by
          rw [hport]; exact alloc_ge s
        have hmem : vm.sshPort ∈ (Finset.Ico baseSSHPort p).filter
            (fun q => portFreeB s q = true) :=
          Finset.mem_filter.mpr ⟨Finset.mem_Ico.mpr ⟨hqge, hqlt⟩, hqfree⟩
        have hpos : 0 < freeCount s p := Finset.card_pos.mpr ⟨_, hmem⟩
        omega
      exact ⟨[], u0, s, s2, vm, by simp, rfl, hp, by omega⟩
  | succ m ih =>
    intro s p owners hcount hInv hfree hbase hnd helig hlen
    cases owners with
    | nil => simp at hlen
    | cons u0 rest =>
      obtain ⟨s2, vm, hp⟩ := provisionVM_ok_of_eligible s u0 "vm"
        (helig u0 (List.mem_cons_self u0 rest))
      obtain ⟨_, _, _, _, hport, _, _, _⟩ := provisionVM_ok_append hp
      have hfb : portFreeB s p = true := (portIsFree_iff s p).mp hfree
      have hqle : vm.sshPort ≤ p := by
        rw [hport]
        exact alloc_min s p hbase (portFreeB_not_mem hfb)
      by_cases hqp : vm.sshPort = p
      · exact ⟨[], u0, s, s2, vm, by simp, rfl, hp, hqp⟩
      · have hqlt : vm.sshPort < p := Nat.lt_of_le_of_ne hqle hqp
        have hqfree : portFreeB s vm.sshPort = true := by
          rw [hport]; exact portFreeB_alloc s
        have hqge : baseSSHPort ≤ vm.sshPort := by
          rw [hport]; exact alloc_ge s
        have hcount2 : freeCount s2 p = m := by
          have := freeCount_after_provision hp hqfree hqge hqlt
          omega
        have hInv2 : PortInv s2 := portInv_provision hInv hp
        have hfree2 : portIsFree s2 p := by
          rw [portIsFree_iff, portFreeB_after_provision hp p, hfb]
          simp only [Bool.true_and, Bool.not_eq_true', beq_eq_false_iff_ne, ne_eq]
          exact fun hx => hqp hx.symm
        have hnd2 : rest.Nodup := (List.nodup_cons.mp hnd).2
        have helig2 : ∀ o ∈ rest, eligibleOwner s2 o := by
          intro o ho
          have hne : o ≠ u0 := fun hx => (List.nodup_cons.mp hnd).1 (hx ▸ ho)
          exact eligible_after_provision hp hne
            (helig o (List.mem_cons_of_mem _ ho))
        have hlen2 : m < rest.length := by
          simp only [List.length_cons] at hlen
          omega
        obtain ⟨ops', u', sMid, sFin, vmF, hops', happ, hprov, hportF⟩ :=
          ih s2 p rest hcount2 hInv2 hfree2 hbase hnd2 helig2 hlen2
        refine ⟨Op.provision u0 "vm" :: ops', u', sMid, sFin, vmF, ?_, ?_, hprov, hportF⟩
        · intro op hop
          rcases List.mem_cons.mp hop with hop | hop
          · subst hop; rfl
          · exact hops' op hop
        · show applySeq (applyOp s (Op.provision u0 "vm")) ops' = sMid
          rw [show applyOp s (Op.provision u0 "vm") = s2 from by simp [applyOp, hp]]
          exact happ

/-- Claim C3: starting from any state satisfying the port invariant (in
particular the empty deployment), every provision/terminate sequence keeps
the ports of non-terminated records pairwise distinct; and terminating a
non-terminated owned record always succeeds, leaves its former port
completely unreserved, and — given enough distinct eligible owners — some
later provision in a provision/terminate continuation is handed exactly that
port again. -/
theorem C3_port_uniqueness_and_reuse (s : SysState) (hInv : PortInv s) :
    (∀ ops : List Op, (∀ op ∈ ops, isPT op = true) →
      (nonTermRecs (applySeq s ops)).Pairwise (fun a b => a.sshPort ≠ b.sshPort)) ∧
    (∀ v u stopOk r, findVM s v u = some r → r.status ≠ VMStatus.terminated →
      ∃ s', terminateVM s v u stopOk = .ok s' ∧ portIsFree s' r.sshPort ∧
        ∀ owners : List Nat, owners.Nodup →
          (∀ o ∈ owners, eligibleOwner s' o) →
          freeCount s' r.sshPort < owners.length →
          ∃ (ops : List Op) (u' : Nat) (sMid sFin : SysState) (vm : VMRec),
            (∀ op ∈ ops, isPT op = true) ∧ applySeq s' ops = sMid ∧
            provisionVM sMid u' "vm" = .ok (sFin, vm) ∧
            vm.sshPort = r.sshPort) := by
  constructor
  · intro ops hops
    exact (portInv_applySeq s ops hInv hops).2.1
  · intro v u stopOk r hr hterm
    obtain ⟨s', ht⟩ := terminateVM_ok_of_found s v u stopOk r hr
    have hfree : portIsFree s' r.sshPort :=
      portFree_after_terminate hInv hr hterm ht
    have hInv' : PortInv s' := portInv_terminate hInv ht
    have hbase : baseSSHPort ≤ r.sshPort := by
      apply hInv.2.2 r
      unfold findVM at hr
      exact List.mem_filter.mpr
        ⟨List.mem_of_find?_eq_some hr, by simpa using hterm⟩
    refine ⟨s', ht, hfree, ?_⟩
    intro owners hnd helig hlen
    exact provision_reuses_port (freeCount s' r.sshPort) s' r.sshPort owners
      rfl hInv' hfree hbase hnd helig hlen

/-- Witness for C3 at `reuseState`: terminating the running VM that holds
port 30000 frees it, and the fresh owner 2 is then handed 30000 by the very
next provision. -/
theorem C3_port_uniqueness_and_reuse_witness :
    ∃ s', terminateVM reuseState 1 1 true = .ok s' ∧ portIsFree s' 30000 ∧
      ∀ owners : List Nat, owners.Nodup →
        (∀ o ∈ owners, eligibleOwner s' o) →
        freeCount s' 30000 < owners.length →
        ∃ (ops : List Op) (u' : Nat) (sMid sFin : SysState) (vm : VMRec),
          (∀ op ∈ ops, isPT op = true) ∧ applySeq s' ops = sMid ∧
          provisionVM sMid u' "vm" = .ok (sFin, vm) ∧ vm.sshPort = 30000 :=
  (C3_port_uniqueness_and_reuse reuseState (by decide)).2 1 1 true
    { vmId := 1, ownerId := 1, containerId := 1, name := "A",
      status := .running, sshPort := 30000, totalRuntime := 0,
      creditsConsumed := 0, lastStartedAt := some 0, lastStoppedAt := none }
    (by decide) (by decide)

end AiClub
